import Mathlib

/-!
Verification of the ISH Home-Assistant-style core: entity state registry,
domain-scoped service dispatcher, and the WebSocket session protocol, together
with the payload construction of the Python example client
(src/examples/homeassistant.py). The server components are modelled from the
specification (spec.md sections 3, 4.1, 4.2, 4.4, 7), since the repository
ships only the example clients and test scripts that exercise them.
-/

namespace ISH

/-- JSON-like attribute or parameter value, as carried by entity attribute
maps and service-call parameter maps. -/
inductive JVal where
  | str (s : String)
  | num (n : Int)
  | boolean (b : Bool)
deriving DecidableEq, Repr

/-- An open mapping from attribute name to value, in insertion order. -/
abbrev Attrs := List (String × JVal)

/-- Python dict assignment d[k] = v on an insertion-ordered mapping:
overwrite in place if the key exists, else append at the end. -/
def setKey : Attrs → String → JVal → Attrs
  | [], k, v => [(k, v)]
  | (k0, v0) :: rest, k, v =>
      if k0 = k then (k, v) :: rest else (k0, v0) :: setKey rest k v

/-- Python dict lookup d.get(k) on an insertion-ordered mapping. -/
def getKey (d : Attrs) (k : String) : Option JVal :=
  (d.find? (fun p => p.1 == k)).map (fun p => p.2)

/-- Modelled from the spec: the domain of an entity identifier is the literal
text before the first dot (spec section 3; also computed by the client in
src/examples/homeassistant.py line 79 as entity_id.split(".")[0]). -/
def domainOf (s : String) : String :=
  String.mk (s.data.takeWhile (fun c => c != '.'))

/-- Modelled from the spec: an Entity of the entity registry (spec section 3):
identifier, short state token, open attribute map, and a timestamp refreshed
on every mutation. The domain is derived from the identifier and is not a
stored field. -/
structure Entity where
  entity_id : String
  state : String
  attributes : Attrs
  last_updated : Nat
deriving DecidableEq, Repr

/-- The derived domain of an entity: the text of its identifier before the
first dot. -/
def Entity.domain (e : Entity) : String := domainOf e.entity_id

/-- Modelled from the spec: the Entity Store (spec section 4.1), the single
source of truth mapping entity identifier to current state. The clock models
the monotonically increasing timestamp source; it advances on every write. -/
structure Store where
  entities : List Entity
  clock : Nat
deriving DecidableEq, Repr

/-- The empty store. -/
def Store.empty : Store := ⟨[], 0⟩

/-- Modelled from the spec: get(id) returns the entity or NotFound (here
Option.none) on an unknown id (spec section 4.1). -/
def Store.get (st : Store) (id : String) : Option Entity :=
  st.entities.find? (fun e => e.entity_id == id)

/-- Modelled from the spec: get_all() returns a consistent snapshot of all
entities in a stable order (spec section 4.1). -/
def Store.get_all (st : Store) : List Entity := st.entities

/-- Modelled from the spec: set(id, state, attributes) creates the entity if
absent or overwrites state and attributes if present, always refreshing
last_updated, and returns the resulting entity (spec section 4.1). It is a
total function: set never fails on well-formed input. -/
def Store.set (st : Store) (id state : String) (attrs : Attrs) : Store × Entity :=
  let clk := st.clock + 1
  let e : Entity := ⟨id, state, attrs, clk⟩
  let ents :=
    if st.entities.any (fun x => x.entity_id == id) then
      st.entities.map (fun x => if x.entity_id == id then e else x)
    else
      st.entities ++ [e]
  (⟨ents, clk⟩, e)

/-- A service's state/attribute transformation: from the current entity and
the call parameters to the new state and new attributes (spec section 4.2). -/
abbrev Transform := Entity → Attrs → String × Attrs

/-- Merge the supplied parameters into a base attribute map, later keys
overwriting earlier ones. -/
def mergeAttrs (base extra : Attrs) : Attrs :=
  extra.foldl (fun acc kv => setKey acc kv.1 kv.2) base

/-- Modelled from the spec: turn_on sets state "on" and merges supplied
attributes (spec section 4.2). -/
def turnOn : Transform := fun e params => ("on", mergeAttrs e.attributes params)

/-- Modelled from the spec: turn_off sets state "off" and clears transient
attributes (spec section 4.2); the model clears the attribute map. -/
def turnOff : Transform := fun _ _ => ("off", [])

/-- Modelled from the spec: set_temperature merges a temperature attribute
without changing state (spec section 4.2). -/
def setTemperature : Transform := fun e params =>
  (e.state,
    match getKey params "temperature" with
    | some v => setKey e.attributes "temperature" v
    | none => e.attributes)

/-- Modelled from the spec: the lock domain's lock service, as exercised by
the night-mode step of the example client; sets state "locked". -/
def lockLock : Transform := fun e _ => ("locked", e.attributes)

/-- Modelled from the spec: the pluggable lookup table of service semantics
keyed by (domain, service) (spec section 4.2), covering the services the
example clients invoke. -/
def lookupService (domain service : String) : Option Transform :=
  if (domain == "light" || domain == "switch" || domain == "media_player")
      && service == "turn_on" then some turnOn
  else if (domain == "light" || domain == "switch" || domain == "media_player")
      && service == "turn_off" then some turnOff
  else if domain == "climate" && service == "set_temperature" then some setTemperature
  else if domain == "lock" && service == "lock" then some lockLock
  else none

/-- The error taxonomy of spec section 7. -/
inductive ErrorKind where
  | NotFound
  | UnsupportedService
  | UnknownCommand
  | DuplicateId
  | AuthInvalid
  | AuthTimeout
  | ProtocolViolation
deriving DecidableEq, Repr

/-- One step of the dispatcher's write-back loop: apply the transformation to
one target entity, write the result through the Entity Store, and append the
resulting entity to the affected list. -/
def applyStep (tf : Transform) (params : Attrs) (acc : Store × List Entity)
    (e : Entity) : Store × List Entity :=
  let r := tf e params
  let su := Store.set acc.1 e.entity_id r.1 r.2
  (su.1, acc.2 ++ [su.2])

/-- Modelled from the spec: apply the service transformation to each resolved
target in order, writing each result back through the Entity Store, and
return the list of resulting entities in resolution order (spec section 4.2). -/
def applyService (tf : Transform) (params : Attrs) (targets : List Entity)
    (st : Store) : Store × List Entity :=
  targets.foldl (applyStep tf params) (st, [])

/-- Modelled from the spec: resolve the target set of a service call — the
named entity if a target is given, else every entity of the call's domain —
then drop entities whose domain does not match the call's domain, silently
(spec section 4.2). -/
def resolveTargets (st : Store) (domain : String) (target : Option String) :
    List Entity :=
  match target with
  | some eid =>
      (st.entities.filter (fun e => e.entity_id == eid)).filter
        (fun e => domainOf e.entity_id == domain)
  | none => st.entities.filter (fun e => domainOf e.entity_id == domain)

/-- Modelled from the spec: the Service Dispatcher's
call(domain, service, entity_id?, params) (spec section 4.2). Unknown
(domain, service) pairs signal UnsupportedService; otherwise the resolved,
domain-filtered targets are transformed and written back. -/
def call (st : Store) (domain service : String) (target : Option String)
    (params : Attrs) : Except ErrorKind (Store × List Entity) :=
  match lookupService domain service with
  | none => .error .UnsupportedService
  | some tf => .ok (applyService tf params (resolveTargets st domain target) st)

/-- Modelled from the spec: the per-connection session states of the
WebSocket protocol (spec sections 3 and 4.4). -/
inductive SessionState where
  | awaitingAuth
  | authenticated
  | closed
deriving DecidableEq, Repr

/-- Modelled from the spec: the command types a WebSocket command envelope
can carry after authentication (spec section 4.4). -/
inductive CmdType where
  | getStates
  | ping
  | callService (domain service : String) (target : Option String) (params : Attrs)
  | unknown (t : String)
deriving DecidableEq, Repr

/-- Modelled from the spec: inbound WebSocket messages — the auth handshake
message with its optional bearer token, an id-carrying command envelope, or
any other message type (spec sections 3 and 4.4). -/
inductive InMsg where
  | auth (token : Option String)
  | command (id : Nat) (c : CmdType)
  | other (t : String)
deriving DecidableEq, Repr

/-- Modelled from the spec: outbound WebSocket messages — handshake frames,
the id-correlated result envelope, and the pong frame (spec sections 3, 4.4
and 6). -/
inductive OutMsg where
  | authRequired
  | authOk
  | authInvalid
  | result (id : Nat) (success : Bool) (res : Option (List Entity))
      (err : Option ErrorKind)
  | pong (id : Option Nat)
deriving DecidableEq, Repr

/-- Modelled from the spec: the per-connection WebSocket session object, with
its protocol state and the set of in-flight command ids together with their
pending commands (spec section 3). -/
structure Session where
  sstate : SessionState
  inFlight : List (Nat × CmdType)
deriving DecidableEq, Repr

/-- Modelled from the spec: on connection accept the session is created in
state awaitingAuth and the server emits the handshake-required message (spec
section 4.4 step 1). -/
def onConnect : Session × List OutMsg :=
  (⟨.awaitingAuth, []⟩, [.authRequired])

/-- Modelled from the spec: execute one accepted command against the store
and shape its reply envelope (spec section 4.4 step 3): get_states returns
the snapshot, ping answers pong mirroring the id, call_service invokes the
dispatcher, and an unknown type fails with UnknownCommand. -/
def execCmd (st : Store) (c : CmdType) (id : Nat) : Store × OutMsg :=
  match c with
  | .getStates => (st, .result id true (some (Store.get_all st)) none)
  | .ping => (st, .pong (some id))
  | .callService d s t p =>
      match call st d s t p with
      | .ok r => (r.1, .result id true (some r.2) none)
      | .error e => (st, .result id false none (some e))
  | .unknown _ => (st, .result id false none (some .UnknownCommand))

/-- Modelled from the spec: receiving a command envelope on an authenticated
session. A reused in-flight id is rejected immediately with DuplicateId
without executing the command; otherwise the command joins the in-flight set
awaiting completion (spec section 4.4 step 3). -/
def recvCmd (sess : Session) (st : Store) (id : Nat) (c : CmdType) :
    Session × Store × List OutMsg :=
  if sess.inFlight.any (fun p => p.1 == id) then
    (sess, st, [.result id false none (some .DuplicateId)])
  else
    (⟨sess.sstate, sess.inFlight ++ [(id, c)]⟩, st, [])

/-- Modelled from the spec: completing a pending command — execute it against
the store, emit its reply envelope, and retire its id from the in-flight set
(spec sections 3 and 4.4). -/
def completeCmd (sess : Session) (st : Store) (id : Nat) :
    Session × Store × List OutMsg :=
  match sess.inFlight.find? (fun p => p.1 == id) with
  | some pc =>
      let r := execCmd st pc.2 id
      (⟨sess.sstate, sess.inFlight.filter (fun p => !(p.1 == id))⟩, r.1, [r.2])
  | none => (sess, st, [])

/-- Modelled from the spec: the synchronous handling of one command envelope
— receive it, and unless it was rejected as a duplicate, complete it at once
(spec section 4.4; implementations SHOULD preserve arrival order). -/
def handleCommand (sess : Session) (st : Store) (id : Nat) (c : CmdType) :
    Session × Store × List OutMsg :=
  let r := recvCmd sess st id c
  match r.2.2 with
  | [] => completeCmd r.1 r.2.1 id
  | _ => r

/-- Modelled from the spec: one protocol step of a WebSocket session on one
inbound message (spec section 4.4). While awaitingAuth, only an auth message
is accepted: a valid token authenticates, an invalid or missing token closes
with auth_invalid, and any other message type is a protocol violation that
closes the connection with no reply. While authenticated, command envelopes
are handled; a closed session emits nothing. -/
def step (valid : String → Bool) (sess : Session) (st : Store) (m : InMsg) :
    Session × Store × List OutMsg :=
  match sess.sstate with
  | .awaitingAuth =>
      match m with
      | .auth (some tok) =>
          if valid tok then (⟨.authenticated, sess.inFlight⟩, st, [.authOk])
          else (⟨.closed, sess.inFlight⟩, st, [.authInvalid])
      | .auth none => (⟨.closed, sess.inFlight⟩, st, [.authInvalid])
      | _ => (⟨.closed, sess.inFlight⟩, st, [])
  | .authenticated =>
      match m with
      | .command id c => handleCommand sess st id c
      | _ => (sess, st, [])
  | .closed => (sess, st, [])

/-- Run a session over a list of inbound messages, concatenating all
outbound messages in order. -/
def run (valid : String → Bool) :
    Session → Store → List InMsg → Session × Store × List OutMsg
  | sess, st, [] => (sess, st, [])
  | sess, st, m :: ms =>
      let r := step valid sess st m
      let rr := run valid r.1 r.2.1 ms
      (rr.1, rr.2.1, r.2.2 ++ rr.2.2)

/-- The store states reachable from the empty store by Entity Store writes
and successful service dispatches. -/
inductive Reachable : Store → Prop where
  | empty : Reachable Store.empty
  | set (st : Store) (id s : String) (a : Attrs) :
      Reachable st → Reachable (Store.set st id s a).1
  | dispatch (st st2 : Store) (d s : String) (t : Option String) (p : Attrs)
      (es : List Entity) :
      Reachable st → call st d s t p = .ok (st2, es) → Reachable st2

/-- Embeds ISHHomeAssistantClient.call_service's request-body construction
(src/examples/homeassistant.py lines 48-54): payload = service_data or a
fresh empty dict (a supplied empty dict is falsy and is replaced), then, when
the entity_id argument is truthy (a non-empty string), payload["entity_id"]
is assigned that argument. -/
def callServicePayload (entity_id : Option String) (service_data : Option Attrs) :
    Attrs :=
  let payload : Attrs :=
    match service_data with
    | some d => if d.isEmpty then [] else d
    | none => []
  match entity_id with
  | some eid => if eid.isEmpty then payload else setKey payload "entity_id" (.str eid)
  | none => payload

/-- The two-entity store of end-to-end scenario 3 of spec section 8:
light.a on and switch.b on. -/
def demoStore : Store :=
  ⟨[⟨"light.a", "on", [], 0⟩, ⟨"switch.b", "on", [], 0⟩], 0⟩

/-- find? over a list with no matching element, followed by a matching
singleton, finds the singleton. -/
theorem find_append_single {α : Type} (l : List α) (p : α → Bool) (x : α)
    (h : l.any p = false) (hx : p x = true) :
    (l ++ [x]).find? p = some x := by
  induction l with
  | nil => simp [List.find?_cons_of_pos _ hx]
  | cons a as ih =>
      rw [List.any_cons, Bool.or_eq_false_iff] at h
      rw [List.cons_append, List.find?_cons_of_neg _ (by simp [h.1]), ih h.2]

/-- find? ignores a trailing non-matching singleton. -/
theorem find_append_single_ne {α : Type} (l : List α) (q : α → Bool) (x : α)
    (hx : q x = false) : (l ++ [x]).find? q = l.find? q := by
  induction l with
  | nil =>
      rw [List.nil_append, List.find?_cons_of_neg _ (by simp [hx])]
  | cons a as ih =>
      cases hq : q a with
      | true =>
          rw [List.cons_append, List.find?_cons_of_pos _ hq,
            List.find?_cons_of_pos _ hq]
      | false =>
          rw [List.cons_append, List.find?_cons_of_neg _ (by simp [hq]),
            List.find?_cons_of_neg _ (by simp [hq]), ih]

/-- A list with no p-matching element is unchanged by filtering away the
p-matches. -/
theorem filter_not_of_any_false {α : Type} (l : List α) (p : α → Bool)
    (h : l.any p = false) : l.filter (fun a => !(p a)) = l := by
  induction l with
  | nil => rfl
  | cons a as ih =>
      rw [List.any_cons, Bool.or_eq_false_iff] at h
      simp [List.filter_cons, h.1, ih h.2]

/-- Filtering cannot create a p-match that was not already present. -/
theorem any_filter_false {α : Type} (l : List α) (p q : α → Bool)
    (h : l.any p = false) : (l.filter q).any p = false := by
  induction l with
  | nil => rfl
  | cons a as ih =>
      rw [List.any_cons, Bool.or_eq_false_iff] at h
      cases hq : q a with
      | true => simp [List.filter_cons, hq, List.any_cons, h.1, ih h.2]
      | false => simp [List.filter_cons, hq, ih h.2]

/-- If find? succeeds then some element matches. -/
theorem any_of_find_some {α : Type} (l : List α) (p : α → Bool) (x : α)
    (h : l.find? p = some x) : l.any p = true := by
  induction l with
  | nil => simp [List.find?] at h
  | cons a as ih =>
      cases hp : p a with
      | true => simp [List.any_cons, hp]
      | false =>
          rw [List.find?_cons_of_neg _ (by simp [hp])] at h
          simp [List.any_cons, ih h]

/-- Successive filters with contradictory predicates yield the empty list. -/
theorem filter_filter_nil {α : Type} (l : List α) (p q : α → Bool)
    (h : ∀ x, p x = true → q x = false) : (l.filter p).filter q = [] := by
  induction l with
  | nil => rfl
  | cons a as ih =>
      cases hp : p a with
      | true => simp [List.filter_cons, hp, h a hp, ih]
      | false => simp [List.filter_cons, hp, ih]

/-- Replacing every p-match by e (which itself matches p) makes find? return
e, provided some element matched p. -/
theorem find_map_replace {α : Type} (l : List α) (p : α → Bool) (e : α)
    (hpe : p e = true) (h : l.any p = true) :
    (l.map (fun x => if p x then e else x)).find? p = some e := by
  induction l with
  | nil => simp at h
  | cons a as ih =>
      cases hp : p a with
      | true => simp [List.map_cons, hp, List.find?_cons_of_pos _ hpe]
      | false =>
          rw [List.any_cons, hp, Bool.false_or] at h
          rw [List.map_cons, if_neg (by simp [hp]),
            List.find?_cons_of_neg _ (by simp [hp]), ih h]

/-- Replacing every p-match by e leaves find? for q unchanged, provided e and
every p-match fail q. -/
theorem find_map_replace_ne {α : Type} (l : List α) (p q : α → Bool) (e : α)
    (hqe : q e = false) (hc : ∀ x, p x = true → q x = false) :
    (l.map (fun x => if p x then e else x)).find? q = l.find? q := by
  induction l with
  | nil => rfl
  | cons a as ih =>
      cases hp : p a with
      | true =>
          rw [List.map_cons, if_pos hp, List.find?_cons_of_neg _ (by simp [hqe]),
            List.find?_cons_of_neg _ (by simp [hc a hp]), ih]
      | false =>
          cases hq : q a with
          | true =>
              rw [List.map_cons, if_neg (by simp [hp]),
                List.find?_cons_of_pos _ hq, List.find?_cons_of_pos _ hq]
          | false =>
              rw [List.map_cons, if_neg (by simp [hp]),
                List.find?_cons_of_neg _ (by simp [hq]),
                List.find?_cons_of_neg _ (by simp [hq]), ih]

/-- A found element is a member of the list. -/
theorem mem_of_find_some {α : Type} (l : List α) (p : α → Bool) (x : α)
    (h : l.find? p = some x) : x ∈ l := by
  induction l with
  | nil => simp [List.find?] at h
  | cons a as ih =>
      cases hp : p a with
      | true =>
          rw [List.find?_cons_of_pos _ hp, Option.some_inj] at h
          exact h ▸ List.mem_cons_self a as
      | false =>
          rw [List.find?_cons_of_neg _ (by simp [hp])] at h
          exact List.mem_cons_of_mem a (ih h)

/-- takeWhile yields the longest initial segment satisfying p: the input
splits as that segment followed by a remainder whose first element, if any,
fails p. -/
theorem takeWhile_spec {α : Type} (p : α → Bool) (l : List α) :
    ∃ rest, l = l.takeWhile p ++ rest ∧ (∀ c ∈ l.takeWhile p, p c = true) ∧
      (∀ c, rest.head? = some c → p c = false) := by
  induction l with
  | nil => exact ⟨[], by simp, by simp, by simp⟩
  | cons a as ih =>
      cases hp : p a with
      | true =>
          obtain ⟨rest, h1, h2, h3⟩ := ih
          refine ⟨rest, ?_, ?_, h3⟩
          · rw [List.takeWhile_cons, hp]
            simpa using h1
          · intro c hc
            rw [List.takeWhile_cons, hp] at hc
            rcases List.mem_cons.mp hc with hc | hc
            · exact hc ▸ hp
            · exact h2 c hc
      | false =>
          refine ⟨a :: as, ?_, ?_, ?_⟩
          · rw [List.takeWhile_cons, hp]
            rfl
          · intro c hc
            rw [List.takeWhile_cons, hp] at hc
            simp at hc
          · intro c hc
            rw [List.head?_cons, Option.some_inj] at hc
            exact hc ▸ hp

/-- Lookup after dict assignment at the same key returns the assigned
value. -/
theorem getKey_setKey (d : Attrs) (k : String) (v : JVal) :
    getKey (setKey d k v) k = some v := by
  induction d with
  | nil => simp [setKey, getKey]
  | cons kv rest ih =>
      obtain ⟨k0, v0⟩ := kv
      by_cases hk : k0 = k
      · subst hk
        simp [setKey, getKey]
      · have hskip : ((k0, v0) :: setKey rest k v).find? (fun p => p.1 == k) =
            (setKey rest k v).find? (fun p => p.1 == k) :=
          List.find?_cons_of_neg _ (by simp [hk])
        simpa [setKey, hk, getKey, hskip] using ih

/-- get after set at the written id returns exactly the written entity. -/
theorem get_set_eq (st : Store) (id s : String) (a : Attrs) :
    Store.get (Store.set st id s a).1 id = some (Store.set st id s a).2 := by
  cases hany : st.entities.any (fun x => x.entity_id == id) with
  | true =>
      simp only [Store.get, Store.set, hany, if_true]
      exact find_map_replace _ _ _ (by simp) hany
  | false =>
      simp only [Store.get, Store.set, hany, Bool.false_eq_true, if_false]
      exact find_append_single _ _ _ hany (by simp)

/-- set leaves lookup at every other id unchanged. -/
theorem get_set_ne (st : Store) (id s : String) (a : Attrs) (id2 : String)
    (h : id2 ≠ id) :
    Store.get (Store.set st id s a).1 id2 = Store.get st id2 := by
  cases hany : st.entities.any (fun x => x.entity_id == id) with
  | true =>
      simp only [Store.get, Store.set, hany, if_true]
      exact find_map_replace_ne _ _ _ _
        (beq_eq_false_iff_ne.mpr (fun hh => h hh.symm))
        (fun x hx => by
          have hxe : x.entity_id = id := by simpa using hx
          rw [hxe]
          exact beq_eq_false_iff_ne.mpr (fun hh => h hh.symm))
  | false =>
      simp only [Store.get, Store.set, hany, Bool.false_eq_true, if_false]
      exact find_append_single_ne _ _ _
        (beq_eq_false_iff_ne.mpr (fun hh => h hh.symm))

/-- The id and state of each affected entity produced by the dispatcher's
write-back loop: each target's own id paired with its transformed state, in
resolution order. -/
theorem applyService_fold_ids (tf : Transform) (params : Attrs) :
    ∀ (targets : List Entity) (st : Store) (acc : List Entity),
      ((targets.foldl (applyStep tf params) (st, acc)).2).map
          (fun e => (e.entity_id, e.state)) =
        acc.map (fun e => (e.entity_id, e.state)) ++
          targets.map (fun e => (e.entity_id, (tf e params).1)) := by
  intro targets
  induction targets with
  | nil =>
      intro st acc
      simp
  | cons e ts ih =>
      intro st acc
      rw [List.foldl_cons]
      have heq : applyStep tf params (st, acc) e =
          ((applyStep tf params (st, acc) e).1, (applyStep tf params (st, acc) e).2) := rfl
      rw [heq, ih]
      simp [applyStep, Store.set]

/-- The dispatcher's write-back loop leaves lookup at any id outside the
target id set unchanged. -/
theorem applyService_fold_get_ne (tf : Transform) (params : Attrs) (id2 : String) :
    ∀ (targets : List Entity) (st : Store) (acc : List Entity),
      (∀ e ∈ targets, e.entity_id ≠ id2) →
      Store.get (targets.foldl (applyStep tf params) (st, acc)).1 id2 =
        Store.get st id2 := by
  intro targets
  induction targets with
  | nil =>
      intro st acc _
      rfl
  | cons e ts ih =>
      intro st acc hne
      rw [List.foldl_cons]
      have h1 : Store.get (applyStep tf params (st, acc) e).1 id2 =
          Store.get st id2 := by
        simpa [applyStep] using
          get_set_ne st e.entity_id (tf e params).1 (tf e params).2 id2
            (fun hh => hne e (List.mem_cons_self e ts) hh.symm)
      calc Store.get (ts.foldl (applyStep tf params) (applyStep tf params (st, acc) e)).1 id2
          = Store.get (applyStep tf params (st, acc) e).1 id2 :=
            ih (applyStep tf params (st, acc) e).1 (applyStep tf params (st, acc) e).2
              (fun x hx => hne x (List.mem_cons_of_mem e hx))
        _ = Store.get st id2 := h1

/-- A closed session never emits another message, whatever arrives. -/
theorem run_closed (valid : String → Bool) (fl : List (Nat × CmdType))
    (st : Store) (ms : List InMsg) :
    (run valid ⟨.closed, fl⟩ st ms).2.2 = [] := by
  induction ms generalizing st with
  | nil => rfl
  | cons m ms ih => simp [run, step, ih]

/-- On an authenticated session, a command with a fresh id is received and
completed at once: the command executes against the store, its single reply
is emitted, and the in-flight set returns to its prior value. -/
theorem step_command_exec (valid : String → Bool) (sess : Session) (st : Store)
    (id : Nat) (c : CmdType) (hA : sess.sstate = .authenticated)
    (hf : sess.inFlight.any (fun p => p.1 == id) = false) :
    step valid sess st (.command id c) =
      (⟨.authenticated, sess.inFlight⟩, (execCmd st c id).1,
        [(execCmd st c id).2]) := by
  obtain ⟨ss, fl⟩ := sess
  replace hA : ss = .authenticated := hA
  subst hA
  replace hf : fl.any (fun p => p.1 == id) = false := hf
  have hfind : (fl ++ [(id, c)]).find? (fun p => p.1 == id) = some (id, c) :=
    find_append_single _ _ _ hf (by simp)
  have hfilter : (fl ++ [(id, c)]).filter (fun p => !(p.1 == id)) = fl := by
    rw [List.filter_append, filter_not_of_any_false _ _ hf]
    simp [List.filter_cons]
  simp [step, handleCommand, recvCmd, hf, completeCmd, hfind, hfilter]

/-- C1: the Service Dispatcher distinguishes unknown operations from
mismatched targets: a call with no registered (domain, service) handler
signals UnsupportedService; a call with a known handler whose target entity
id lies in a different domain succeeds with an empty affected-entity list
and an unchanged store; and an error result is never equal to an empty
success result. -/
theorem C1_dispatcher_distinguishes (st : Store) (domain service : String)
    (target : Option String) (params : Attrs) :
    (lookupService domain service = none →
      call st domain service target params = .error .UnsupportedService) ∧
    (∀ tf eid, lookupService domain service = some tf → domainOf eid ≠ domain →
      call st domain service (some eid) params = .ok (st, [])) ∧
    (∀ (st2 : Store) (es : List Entity),
      (Except.error ErrorKind.UnsupportedService :
        Except ErrorKind (Store × List Entity)) ≠ .ok (st2, es)) := by
  refine ⟨?_, ?_, ?_⟩
  · intro h
    simp [call, h]
  · intro tf eid hs hd
    have ht : resolveTargets st domain (some eid) = [] := by
      show (st.entities.filter (fun e => e.entity_id == eid)).filter
        (fun e => domainOf e.entity_id == domain) = []
      refine filter_filter_nil _ _ _ (fun x hx => ?_)
      have hxe : x.entity_id = eid := by simpa using hx
      rw [hxe]
      exact beq_eq_false_iff_ne.mpr hd
    simp [call, hs, ht, applyService]
  · intro st2 es h
    exact Except.noConfusion h

/-- C1 witness: on the empty store, the unknown pair (light, explode) is
rejected with UnsupportedService, while the known pair (light, turn_off)
aimed at the foreign-domain target switch.b succeeds with an empty list. -/
theorem C1_dispatcher_distinguishes_witness :
    lookupService "light" "explode" = none ∧
    call Store.empty "light" "explode" none [] = .error .UnsupportedService ∧
    lookupService "light" "turn_off" = some turnOff ∧
    domainOf "switch.b" ≠ "light" ∧
    call demoStore "light" "turn_off" (some "switch.b") [] = .ok (demoStore, []) := by
  refine ⟨rfl, ?_, rfl, by decide, ?_⟩
  · exact (C1_dispatcher_distinguishes Store.empty "light" "explode" none []).1 rfl
  · exact (C1_dispatcher_distinguishes demoStore "light" "turn_off"
      (some "switch.b") []).2.1 turnOff "switch.b" rfl (by decide)

/-- C2: on an authenticated session, a second command reusing the id of a
command whose response is still pending is answered with
success false / DuplicateId, leaves the store and the session untouched
(the command is not executed and the connection stays open and
authenticated), while completing the pending command still produces the
first command's normal result envelope. -/
theorem C2_duplicate_inflight_id (sess : Session) (st : Store) (id : Nat)
    (c1 c2 : CmdType) (hA : sess.sstate = .authenticated)
    (hfind : sess.inFlight.find? (fun p => p.1 == id) = some (id, c1)) :
    recvCmd sess st id c2 =
      (sess, st, [.result id false none (some .DuplicateId)]) ∧
    (completeCmd sess st id).2.2 = [(execCmd st c1 id).2] ∧
    (recvCmd sess st id c2).1.sstate = .authenticated := by
  have hany : sess.inFlight.any (fun p => p.1 == id) = true :=
    any_of_find_some _ _ _ hfind
  refine ⟨by simp [recvCmd, hany], ?_, by simp [recvCmd, hany, hA]⟩
  simp [completeCmd, hfind]

/-- C2 witness: with a ping pending under id 1, a get_states reusing id 1
is rejected with DuplicateId on an unchanged store, and completing id 1
still emits the pong for the pending ping. -/
theorem C2_duplicate_inflight_id_witness :
    (⟨.authenticated, [(1, CmdType.ping)]⟩ : Session).sstate = .authenticated ∧
    ([(1, CmdType.ping)].find? (fun p => p.1 == 1) = some (1, CmdType.ping)) ∧
    recvCmd ⟨.authenticated, [(1, CmdType.ping)]⟩ Store.empty 1 .getStates =
      (⟨.authenticated, [(1, CmdType.ping)]⟩, Store.empty,
        [.result 1 false none (some .DuplicateId)]) ∧
    (completeCmd ⟨.authenticated, [(1, CmdType.ping)]⟩ Store.empty 1).2.2 =
      [.pong (some 1)] := by
  have h := C2_duplicate_inflight_id ⟨.authenticated, [(1, CmdType.ping)]⟩
    Store.empty 1 .ping .getStates rfl rfl
  exact ⟨rfl, rfl, h.1, h.2.1⟩

/-- C3: a service call with no target applies the service transformation to
exactly the entities of the call's domain — the affected list carries each
matching entity's id with its transformed state, in store order — and every
id outside the domain reads back unchanged; in particular turn_off on the
light domain over a store holding light.a (on) and switch.b (on) affects
only light.a, leaving switch.b on. -/
theorem C3_untargeted_call_domain_scope (st : Store) (domain service : String)
    (params : Attrs) (tf : Transform)
    (hs : lookupService domain service = some tf) (st2 : Store)
    (es : List Entity)
    (hc : call st domain service none params = .ok (st2, es)) :
    (es.map (fun e => (e.entity_id, e.state)) =
      (st.entities.filter (fun e => domainOf e.entity_id == domain)).map
        (fun e => (e.entity_id, (tf e params).1))) ∧
    (∀ id2, domainOf id2 ≠ domain → Store.get st2 id2 = Store.get st id2) ∧
    (call demoStore "light" "turn_off" none [] =
      .ok ((⟨[⟨"light.a", "off", [], 1⟩, ⟨"switch.b", "on", [], 0⟩], 1⟩ : Store),
        [⟨"light.a", "off", [], 1⟩])) ∧
    Store.get demoStore "switch.b" = some ⟨"switch.b", "on", [], 0⟩ := by
  have hA : applyService tf params (resolveTargets st domain none) st = (st2, es) := by
    simpa [call, hs] using hc
  refine ⟨?_, ?_, by rfl, by rfl⟩
  · have := applyService_fold_ids tf params (resolveTargets st domain none) st []
    rw [show es = (applyService tf params (resolveTargets st domain none) st).2 by
      rw [hA]]
    simpa [applyService, resolveTargets] using this
  · intro id2 hd
    rw [show st2 = (applyService tf params (resolveTargets st domain none) st).1 by
      rw [hA]]
    refine applyService_fold_get_ne tf params id2 _ st []
      (fun e he hee => ?_)
    have hdom : domainOf e.entity_id = domain := by
      have := (List.mem_filter.mp he).2
      simpa using this
    exact hd (hee ▸ hdom)

/-- C3 witness: the untargeted light/turn_off call on the two-entity demo
store affects exactly light.a and leaves the foreign-domain id switch.b
reading back unchanged. -/
theorem C3_untargeted_call_domain_scope_witness :
    lookupService "light" "turn_off" = some turnOff ∧
    call demoStore "light" "turn_off" none [] =
      .ok ((⟨[⟨"light.a", "off", [], 1⟩, ⟨"switch.b", "on", [], 0⟩], 1⟩ : Store),
        [⟨"light.a", "off", [], 1⟩]) ∧
    ([⟨"light.a", "off", [], 1⟩] : List Entity).map (fun e => (e.entity_id, e.state)) =
      (demoStore.entities.filter (fun e => domainOf e.entity_id == "light")).map
        (fun e => (e.entity_id, (turnOff e []).1)) := by
  refine ⟨rfl, by rfl, ?_⟩
  exact (C3_untargeted_call_domain_scope demoStore "light" "turn_off" [] turnOff rfl
    (⟨[⟨"light.a", "off", [], 1⟩, ⟨"switch.b", "on", [], 0⟩], 1⟩ : Store)
    [⟨"light.a", "off", [], 1⟩] (by rfl)).1

/-- C4: set is total and, on any store whose timestamps do not exceed its
clock (true of every reachable store), a get at the written id immediately
after set returns an entity carrying exactly the written state and
attributes, whose last_updated is at least the entity's previous
last_updated. -/
theorem C4_set_then_get (st : Store) (id s : String) (a : Attrs)
    (hwf : ∀ e ∈ st.entities, e.last_updated ≤ st.clock) :
    Store.get (Store.set st id s a).1 id = some (Store.set st id s a).2 ∧
    (Store.set st id s a).2.state = s ∧
    (Store.set st id s a).2.attributes = a ∧
    (∀ old, Store.get st id = some old →
      old.last_updated ≤ (Store.set st id s a).2.last_updated) := by
  refine ⟨get_set_eq st id s a, rfl, rfl, ?_⟩
  intro old hold
  have hmem : old ∈ st.entities := mem_of_find_some _ _ _ hold
  have hle : old.last_updated ≤ st.clock := hwf old hmem
  simpa [Store.set] using Nat.le_succ_of_le hle

/-- C4 witness: overwriting light.a on the demo store reads back the new
state and attributes with a last_updated no smaller than before. -/
theorem C4_set_then_get_witness :
    (∀ e ∈ demoStore.entities, e.last_updated ≤ demoStore.clock) ∧
    Store.get (Store.set demoStore "light.a" "off" []).1 "light.a" =
      some (Store.set demoStore "light.a" "off" []).2 ∧
    (Store.set demoStore "light.a" "off" []).2.state = "off" ∧
    (∀ old, Store.get demoStore "light.a" = some old →
      old.last_updated ≤ (Store.set demoStore "light.a" "off" []).2.last_updated) := by
  have h := C4_set_then_get demoStore "light.a" "off" [] (by decide)
  exact ⟨by decide, h.1, h.2.1, h.2.2.2⟩

/-- C5: a fresh connection starts in awaitingAuth with the
handshake-required message as the first and only emitted frame; an auth
message with a valid token then emits auth_ok and authenticates the session,
while an invalid or missing token emits auth_invalid and closes it. -/
theorem C5_handshake (valid : String → Bool) (sess : Session) (st : Store)
    (tok : String) (hA : sess.sstate = .awaitingAuth) :
    onConnect.1.sstate = .awaitingAuth ∧ onConnect.2 = [.authRequired] ∧
    (valid tok = true →
      step valid sess st (.auth (some tok)) =
        (⟨.authenticated, sess.inFlight⟩, st, [.authOk])) ∧
    (valid tok = false →
      step valid sess st (.auth (some tok)) =
        (⟨.closed, sess.inFlight⟩, st, [.authInvalid])) ∧
    step valid sess st (.auth none) =
      (⟨.closed, sess.inFlight⟩, st, [.authInvalid]) := by
  obtain ⟨ss, fl⟩ := sess
  replace hA : ss = .awaitingAuth := hA
  subst hA
  refine ⟨rfl, rfl, ?_, ?_, ?_⟩
  · intro hv
    simp [step, hv]
  · intro hv
    simp [step, hv]
  · rfl

/-- C5 witness: with the token validator accepting exactly "good", a fresh
session accepts "good" into the authenticated state with auth_ok and
rejects "bad" into the closed state with auth_invalid. -/
theorem C5_handshake_witness :
    onConnect.1.sstate = .awaitingAuth ∧
    onConnect.2 = [.authRequired] ∧
    step (fun t => t == "good") onConnect.1 Store.empty (.auth (some "good")) =
      (⟨.authenticated, []⟩, Store.empty, [.authOk]) ∧
    step (fun t => t == "good") onConnect.1 Store.empty (.auth (some "bad")) =
      (⟨.closed, []⟩, Store.empty, [.authInvalid]) ∧
    step (fun t => t == "good") onConnect.1 Store.empty (.auth none) =
      (⟨.closed, []⟩, Store.empty, [.authInvalid]) := by
  have hg := C5_handshake (fun t => t == "good") onConnect.1 Store.empty "good" rfl
  have hb := C5_handshake (fun t => t == "good") onConnect.1 Store.empty "bad" rfl
  exact ⟨hg.1, hg.2.1, hg.2.2.1 rfl, hb.2.2.2.1 rfl, hg.2.2.2.2⟩

/-- C6: while awaiting authentication, any inbound message that is not an
auth message closes the session immediately with no output at all, and the
closed session never emits anything on any later inbound traffic — so no
command response is ever sent on that connection. -/
theorem C6_preauth_violation (valid : String → Bool) (sess : Session)
    (st : Store) (m : InMsg) (hA : sess.sstate = .awaitingAuth)
    (hm : ∀ tok, m ≠ .auth tok) :
    step valid sess st m = (⟨.closed, sess.inFlight⟩, st, []) ∧
    (∀ ms : List InMsg, (run valid ⟨.closed, sess.inFlight⟩ st ms).2.2 = []) := by
  obtain ⟨ss, fl⟩ := sess
  replace hA : ss = .awaitingAuth := hA
  subst hA
  refine ⟨?_, fun ms => run_closed valid fl st ms⟩
  cases m with
  | auth tok => exact absurd rfl (hm tok)
  | command id c => rfl
  | other t => rfl

/-- C6 witness: a get_states command sent before authentication closes the
fresh session with no reply, and an arbitrary later message stream yields
no output either. -/
theorem C6_preauth_violation_witness :
    onConnect.1.sstate = .awaitingAuth ∧
    step (fun t => t == "good") onConnect.1 Store.empty
        (.command 1 .getStates) = (⟨.closed, []⟩, Store.empty, []) ∧
    (run (fun t => t == "good") ⟨.closed, []⟩ Store.empty
        [.auth (some "good"), .command 2 .ping]).2.2 = [] := by
  have h := C6_preauth_violation (fun t => t == "good") onConnect.1 Store.empty
    (.command 1 .getStates) rfl (fun tok hh => InMsg.noConfusion hh)
  exact ⟨rfl, h.1, h.2 [.auth (some "good"), .command 2 .ping]⟩

/-- C7: on an authenticated session, a get_states command with a fresh id N
is answered by the single envelope with id N, success true and the store's
get_all snapshot at the moment of processing, leaving the store untouched;
on an empty store the end-to-end trace auth then get_states(id 1) yields
auth_ok followed by the result envelope id 1, success true, result empty. -/
theorem C7_get_states_snapshot (valid : String → Bool) (sess : Session)
    (st : Store) (id : Nat) (hA : sess.sstate = .authenticated)
    (hf : sess.inFlight.any (fun p => p.1 == id) = false) :
    (step valid sess st (.command id .getStates)).2.2 =
      [.result id true (some (Store.get_all st)) none] ∧
    (step valid sess st (.command id .getStates)).2.1 = st ∧
    (run (fun t => t == "good") onConnect.1 Store.empty
        [.auth (some "good"), .command 1 .getStates]).2.2 =
      [.authOk, .result 1 true (some []) none] := by
  have h := step_command_exec valid sess st id .getStates hA hf
  exact ⟨by simp [h, execCmd], by simp [h, execCmd], by rfl⟩

/-- C7 witness: a get_states under fresh id 5 on an authenticated session
over the demo store is answered with the full snapshot and the store is
unchanged. -/
theorem C7_get_states_snapshot_witness :
    ((⟨.authenticated, []⟩ : Session).sstate = .authenticated) ∧
    (([] : List (Nat × CmdType)).any (fun p => p.1 == 5) = false) ∧
    (step (fun t => t == "good") ⟨.authenticated, []⟩ demoStore
        (.command 5 .getStates)).2.2 =
      [.result 5 true (some (Store.get_all demoStore)) none] ∧
    (step (fun t => t == "good") ⟨.authenticated, []⟩ demoStore
        (.command 5 .getStates)).2.1 = demoStore := by
  have h := C7_get_states_snapshot (fun t => t == "good") ⟨.authenticated, []⟩
    demoStore 5 rfl rfl
  exact ⟨rfl, rfl, h.1, h.2.1⟩

/-- C8: on an authenticated session, a command envelope of unrecognized type
with a fresh id is answered with success false / UnknownCommand; the session
stays authenticated, the store is untouched, and the session still answers a
later ping command with a fresh id, so the connection is never closed by an
unknown command. -/
theorem C8_unknown_command_kept_open (valid : String → Bool) (sess : Session)
    (st : Store) (id : Nat) (t : String) (hA : sess.sstate = .authenticated)
    (hf : sess.inFlight.any (fun p => p.1 == id) = false) :
    (step valid sess st (.command id (.unknown t))).2.2 =
      [.result id false none (some .UnknownCommand)] ∧
    (step valid sess st (.command id (.unknown t))).1.sstate = .authenticated ∧
    (step valid sess st (.command id (.unknown t))).2.1 = st ∧
    (∀ id2, sess.inFlight.any (fun p => p.1 == id2) = false →
      (step valid (step valid sess st (.command id (.unknown t))).1 st
          (.command id2 CmdType.ping)).2.2 = [.pong (some id2)]) := by
  have h := step_command_exec valid sess st id (.unknown t) hA hf
  refine ⟨by simp [h, execCmd], by simp [h], by simp [h, execCmd], ?_⟩
  intro id2 hf2
  have h2 := step_command_exec valid ⟨.authenticated, sess.inFlight⟩ st id2
    .ping rfl hf2
  simp [h, h2, execCmd]

/-- C8 witness: the unrecognized command type subscribe_events under fresh
id 7 is answered with UnknownCommand, the session stays authenticated over
an unchanged store, and a following ping under id 8 is still answered with
pong. -/
theorem C8_unknown_command_kept_open_witness :
    ((⟨.authenticated, []⟩ : Session).sstate = .authenticated) ∧
    (([] : List (Nat × CmdType)).any (fun p => p.1 == 7) = false) ∧
    (step (fun t => t == "good") ⟨.authenticated, []⟩ demoStore
        (.command 7 (.unknown "subscribe_events"))).2.2 =
      [.result 7 false none (some .UnknownCommand)] ∧
    (step (fun t => t == "good") ⟨.authenticated, []⟩ demoStore
        (.command 7 (.unknown "subscribe_events"))).1.sstate = .authenticated ∧
    (step (fun t => t == "good")
        (step (fun t => t == "good") ⟨.authenticated, []⟩ demoStore
          (.command 7 (.unknown "subscribe_events"))).1 demoStore
        (.command 8 CmdType.ping)).2.2 = [.pong (some 8)] := by
  have h := C8_unknown_command_kept_open (fun t => t == "good")
    ⟨.authenticated, []⟩ demoStore 7 "subscribe_events" rfl rfl
  exact ⟨rfl, rfl, h.1, h.2.1, h.2.2.2 8 rfl⟩

/-- C9: in every reachable store state, every entity returned by get_all has
its domain derived from its identifier — never stored separately — and equal
to the literal text before the first dot: the identifier's characters split
as the domain's characters followed by a remainder, the domain contains no
dot, and the remainder, if nonempty, starts with the dot. -/
theorem C9_domain_derivation (st : Store) (hr : Reachable st) :
    ∀ e ∈ Store.get_all st,
      Entity.domain e = domainOf e.entity_id ∧
      ∃ rest : List Char,
        e.entity_id.data = (Entity.domain e).data ++ rest ∧
        (∀ c ∈ (Entity.domain e).data, c ≠ '.') ∧
        (∀ c, rest.head? = some c → c = '.') := by
  intro e _
  refine ⟨rfl, ?_⟩
  obtain ⟨rest, h1, h2, h3⟩ := takeWhile_spec (fun c => c != '.') e.entity_id.data
  refine ⟨rest, ?_, ?_, ?_⟩
  · simpa [Entity.domain, domainOf] using h1
  · intro c hc
    have hcc := h2 c (by simpa [Entity.domain, domainOf] using hc)
    simpa using hcc
  · intro c hc
    have hcc := h3 c hc
    simpa using hcc

/-- C9 witness: the store reached by a single set of light.a is reachable
and its one listed entity satisfies the domain-derivation invariant. -/
theorem C9_domain_derivation_witness :
    Reachable (Store.set Store.empty "light.a" "on" []).1 ∧
    (∀ e ∈ Store.get_all (Store.set Store.empty "light.a" "on" []).1,
      Entity.domain e = domainOf e.entity_id ∧
      ∃ rest : List Char,
        e.entity_id.data = (Entity.domain e).data ++ rest ∧
        (∀ c ∈ (Entity.domain e).data, c ≠ '.') ∧
        (∀ c, rest.head? = some c → c = '.')) := by
  have hr : Reachable (Store.set Store.empty "light.a" "on" []).1 :=
    Reachable.set Store.empty "light.a" "on" [] Reachable.empty
  exact ⟨hr, C9_domain_derivation _ hr⟩

/-- C10: the example client's call_service body construction: a non-empty
entity_id argument always ends up bound to the key "entity_id" in the JSON
body, overwriting any "entity_id" supplied through service_data; with no
entity_id argument the body carries an "entity_id" key exactly as
service_data supplies one, and none at all when service_data is absent. -/
theorem C10_payload_entity_id (eid : String) (sd : Option Attrs)
    (heid : eid.isEmpty = false) :
    getKey (callServicePayload (some eid) sd) "entity_id" = some (.str eid) ∧
    (∀ d : Attrs, getKey (callServicePayload none (some d)) "entity_id" =
      getKey d "entity_id") ∧
    getKey (callServicePayload none none) "entity_id" = none := by
  refine ⟨?_, ?_, rfl⟩
  · simp only [callServicePayload, heid, Bool.false_eq_true, if_false]
    exact getKey_setKey _ _ _
  · intro d
    cases d with
    | nil => rfl
    | cons kv rest => rfl

/-- C10 witness: with entity_id light.bedroom and a service_data that also
supplies entity_id light.other plus a brightness, the body binds entity_id
to light.bedroom; with no entity_id argument the body echoes service_data's
binding, and an absent service_data gives no entity_id key. -/
theorem C10_payload_entity_id_witness :
    ("light.bedroom" : String).isEmpty = false ∧
    getKey (callServicePayload (some "light.bedroom")
        (some [("entity_id", .str "light.other"), ("brightness", .num 200)]))
      "entity_id" = some (.str "light.bedroom") ∧
    getKey (callServicePayload none
        (some [("entity_id", .str "light.other")])) "entity_id" =
      some (.str "light.other") ∧
    getKey (callServicePayload none none) "entity_id" = none := by
  have h := C10_payload_entity_id "light.bedroom"
    (some [("entity_id", .str "light.other"), ("brightness", .num 200)]) rfl
  exact ⟨rfl, h.1, by rfl, h.2.2⟩

end ISH
